import Mathlib

/-!
Shallow embedding of the two extensions of this repository:

* `scrapy/contrib/feedexport.py` — the feed-export extension
  (`FeedExporter.item_passed`, `FeedExporter.close_spider`,
  `FeedExporter._load_components`, `FeedExporter._get_storage`, and the
  Twisted deferred callback chain attached in `close_spider`), together
  with the scheme extraction performed by Python 2's `urlparse.urlparse`.

* `scrapy/trunk/scrapy/contrib/itemsampler.py` — the item-sampling
  extension (`ItemSamplerPipeline.process_item`,
  `ItemSamplerPipeline.domain_closed`, `ItemSamplerPipeline.engine_stopped`,
  `ItemSamplerMiddleware.process_scrape`, `ItemSamplerMiddleware.process_result`).

Python dicts are embedded as association lists with in-place replacement on
key collision (`dictSet`/`lookupD`), the stats service
(`stats.getpath`/`stats.setpath`) as an association list keyed by the path
strings the source builds, and byte streams as `List Nat`.
-/

namespace Scrapy

/-- Python dict assignment `d[k] = v`: replace the binding in place if the
key is present, otherwise append the new binding. -/
def dictSet {K V : Type} [DecidableEq K] : List (K × V) → K → V → List (K × V)
  | [], k, v => [(k, v)]
  | (k', v') :: rest, k, v =>
    if k = k' then (k, v) :: rest else (k', v') :: dictSet rest k v

/-- Python dict lookup `d[k]` / `d.get(k)` on an association list. -/
def lookupD {K V : Type} [DecidableEq K] : List (K × V) → K → Option V
  | [], _ => none
  | (k', v') :: rest, k => if k = k' then some v' else lookupD rest k

/-- `d.update(l)`: fold dict assignment over the entries of `l`. -/
def updAll {K V : Type} [DecidableEq K] (d : List (K × V)) (l : List (K × V)) :
    List (K × V) :=
  l.foldl (fun d p => dictSet d p.1 p.2) d

/-- `dict(l)`: build a fresh dict from the entries of `l` (later duplicate
keys override earlier ones, as in Python). -/
def dictOf {K V : Type} [DecidableEq K] (l : List (K × V)) : List (K × V) :=
  updAll [] l

/-- First-operand-biased choice, i.e. the lookup priority of a dict that was
updated with override entries. -/
def optOr {V : Type} (a b : Option V) : Option V :=
  match a with
  | some x => some x
  | none => b

/-- Occurrence count of an element in a list. -/
def countD {K : Type} [DecidableEq K] : List K → K → Nat
  | [], _ => 0
  | y :: rest, x => (if y = x then 1 else 0) + countD rest x

/-! ## Item sampler (`itemsampler.py`) -/

/-- A scraped item: a unique identifier (`item.guid` in the source) plus a
payload distinguishing otherwise-equal items. -/
structure SItem where
  guid : String
  payload : Nat
deriving DecidableEq

/-- The stats path `"%s/items_sampled" % domain` used by both the pipeline
and the middleware. -/
def statKey (domain : String) : String := domain ++ "/items_sampled"

/-- `stats.getpath(path, default)`: stored value or the default. -/
def getpath (stats : List (String × Nat)) (k : String) (dflt : Nat) : Nat :=
  (lookupD stats k).getD dflt

/-- Python truthiness of `stats.getpath(path)` called without a default:
`None` (absent) and `0` are falsy. -/
def pyFalsyOpt : Option Nat → Bool
  | none => true
  | some n => n == 0

/-- Python 2 comparison `x >= q` where `x` is `stats.getpath(path)` without a
default: `None` compares below every integer, so `None >= q` is `False`. -/
def pyGeOpt : Option Nat → Nat → Bool
  | none, _ => false
  | some n, q => decide (q ≤ n)

/-- The mutable state of an `ItemSamplerPipeline` instance together with the
stats service and the requests it has issued to the engine:
`items` is the guid→item dict, `stats` the shared stats store,
`closeRequests` the calls made to `scrapyengine.close_domain`,
`domainsCount`/`emptyDomains` the domain bookkeeping, `logs` the emitted
log lines. -/
structure SamplerState where
  items : List (String × SItem)
  stats : List (String × Nat)
  closeRequests : List String
  domainsCount : Nat
  emptyDomains : List String
  logs : List String
deriving DecidableEq

/-- The state at pipeline construction. -/
def initialSampler : SamplerState :=
  { items := [], stats := [], closeRequests := [], domainsCount := 0,
    emptyDomains := [], logs := [] }

/-- `ItemSamplerPipeline.process_item(domain, response, item)`:
read the sampled count (default 0); if below `items_per_domain`, retain the
item under its guid, bump the count, and — when the close flag is set and the
new count equals the quota — ask the engine to close the domain; always
return the item. -/
def process_item (items_per_domain : Nat) (close_domain : Bool)
    (st : SamplerState) (domain : String) (item : SItem) :
    SamplerState × SItem :=
  let sampled := getpath st.stats (statKey domain) 0
  if sampled < items_per_domain then
    let sampled' := sampled + 1
    ({ st with
        items := dictSet st.items item.guid item,
        stats := dictSet st.stats (statKey domain) sampled',
        closeRequests :=
          if close_domain = true ∧ sampled' = items_per_domain then
            st.closeRequests ++ [domain]
          else st.closeRequests }, item)
  else (st, item)

/-- Fold `process_item` over a trace of `(domain, item)` events from a given
state. -/
def runSamplerFrom (items_per_domain : Nat) (close_domain : Bool)
    (events : List (String × SItem)) (st : SamplerState) : SamplerState :=
  events.foldl (fun st e => (process_item items_per_domain close_domain st e.1 e.2).1) st

/-- A whole run: fold `process_item` over a trace from the freshly
constructed pipeline state. -/
def runSampler (items_per_domain : Nat) (close_domain : Bool)
    (events : List (String × SItem)) : SamplerState :=
  runSamplerFrom items_per_domain close_domain events initialSampler

/-- Python set `add`: append only when absent. -/
def setAdd (l : List String) (x : String) : List String :=
  if x ∈ l then l else l ++ [x]

/-- `ItemSamplerPipeline.domain_closed(domain, spider, status)`:
if the status is `'finished'` and the domain's sampled count is falsy
(zero or absent), record the domain as empty; always bump the domain counter
and log the progress line. -/
def domain_closed (st : SamplerState) (domain : String) (status : String) :
    SamplerState :=
  let empty' :=
    if status = "finished" ∧ pyFalsyOpt (lookupD st.stats (statKey domain)) = true
    then setAdd st.emptyDomains domain
    else st.emptyDomains
  let dc := st.domainsCount + 1
  { st with
      emptyDomains := empty',
      domainsCount := dc,
      logs := st.logs ++
        ["Sampled " ++ toString dc ++ " domains so far (" ++
         toString empty'.length ++ " empty)"] }

/-- What `ItemSamplerPipeline.engine_stopped` produces: the dict pickled to
`ITEMSAMPLER_FILE` and the optional empty-domains warning line. -/
structure EngineStopEffect where
  persisted : List (String × SItem)
  warning : Option String
deriving DecidableEq

/-- `ItemSamplerPipeline.engine_stopped`: pickle `self.items`; warn when the
empty-domains set is non-empty. -/
def engine_stopped (st : SamplerState) : EngineStopEffect :=
  { persisted := st.items,
    warning :=
      if st.emptyDomains ≠ [] then
        some ("Empty domains (no items scraped) found: " ++
          String.intercalate " " st.emptyDomains)
      else none }

/-- `ItemSamplerMiddleware.process_scrape(response, spider)`: returns `[]`
when the domain's sampled count is at or above the quota, otherwise falls
through (Python implicit `None`, i.e. no override). -/
def process_scrape (α : Type) (stats : List (String × Nat))
    (items_per_domain : Nat) (domain : String) : Option (List α) :=
  if pyGeOpt (lookupD stats (statKey domain)) items_per_domain = true then
    some []
  else none

/-- `ItemSamplerMiddleware.process_result(response, result, spider)`:
returns `[]` when the domain's sampled count is at or above the quota,
otherwise returns `result` unchanged. -/
def process_result (α : Type) (stats : List (String × Nat))
    (items_per_domain : Nat) (domain : String) (result : List α) : List α :=
  if pyGeOpt (lookupD stats (statKey domain)) items_per_domain = true then []
  else result

/-! ## Feed export (`feedexport.py`) -/

/-- Characters Python 2's `urlparse` accepts inside a URL scheme
(`scheme_chars`). -/
def schemeChar (c : Char) : Bool :=
  c.isAlpha || c.isDigit || c == '+' || c == '-' || c == '.'

/-- Split `url` at its first `':'` provided the colon is not at position 0
and every character before it is a scheme character; returns the candidate
scheme (still uncased) and the remainder. -/
def schemeSplit : List Char → List Char → Option (List Char × List Char)
  | [], _ => none
  | c :: cs, acc =>
    if c = ':' then
      if acc.isEmpty then none else some (acc.reverse, cs)
    else if schemeChar c then schemeSplit cs (c :: acc)
    else none

/-- `urlparse(url).scheme` as computed by Python 2.7's `urlparse`:
the lowercased text before the first `':'` when that text is a non-empty run
of scheme characters, except that a candidate other than the literal
`'http'` followed by a non-empty all-digit remainder is treated as a port
number (no scheme); otherwise the scheme is the empty string. -/
def urlscheme (s : String) : String :=
  match schemeSplit s.data [] with
  | none => ""
  | some (p, rest) =>
    if String.mk p = "http" then "http"
    else if rest.isEmpty || !(rest.all Char.isDigit) then
      String.mk (p.map Char.toLower)
    else ""

/-- A `SpiderSlot`: the spider's temporary feed stream (as the bytes written
so far) and its running item count. The bound exporter is modelled by the
per-item serialization function passed to `item_passed`. -/
structure FeedSlot where
  file : List Nat
  itemcount : Nat
deriving DecidableEq

/-- `FeedExporter.item_passed(item, spider)`: serialize the item onto the
slot's stream, bump the count, return the item. `ser` is the bound
exporter's `export_item` encoding of one record (the line-oriented
serializers write nothing in `start_exporting`/`finish_exporting`). -/
def item_passed {α : Type} (ser : α → List Nat) (slot : FeedSlot) (item : α) :
    FeedSlot × α :=
  ({ file := slot.file ++ ser item, itemcount := slot.itemcount + 1 }, item)

/-- The slot created by `FeedExporter.open_spider`. -/
def openSlot : FeedSlot := { file := [], itemcount := 0 }

/-- The slot after the spider's records have all passed through
`item_passed`. -/
def runFeedItems {α : Type} (ser : α → List Nat) (records : List α) : FeedSlot :=
  records.foldl (fun s r => (item_passed ser s r).1) openSlot

/-- Python truthiness of a freshly constructed storage backend object:
instances are always truthy, so the `if not storage: return` branch of
`close_spider` is unreachable. -/
def pyTruthyBackend (_cls : String) : Bool := true

/-- Result of `FeedExporter.close_spider` on one spider:
`skippedEmpty` — the early return for an empty feed with
`FEED_STORE_EMPTY` false; `raisedKeyError s` — the `KeyError` escaping from
`self.storages[urlparse(uri).scheme]` in `_get_storage` for the unknown
scheme `s`; `noStorage` — the (dead) `if not storage: return` branch;
`launched cls stream stored err` — `storage.store` invoked once on backend
class `cls` with the rewound stream, with the two log lines the deferred
callbacks would emit. -/
inductive CloseResult where
  | skippedEmpty
  | raisedKeyError (scheme : String)
  | noStorage
  | launched (cls : String) (stream : List Nat) (storedMsg : String) (errMsg : String)
deriving DecidableEq

/-- `FeedExporter.close_spider(spider)`. `storages` is the scheme→backend
registry, `fmt` the configured feed format, `uri` the already %-formatted
feed URI (`self.urifmt % self._get_uri_params(spider)` — the parameter map
itself is built by runtime reflection over the spider and the wall clock and
is passed in here as its result). -/
def close_spider (storages : List (String × String)) (fmt : String)
    (store_empty : Bool) (slot : FeedSlot) (uri : String) : CloseResult :=
  if slot.itemcount = 0 ∧ store_empty = false then CloseResult.skippedEmpty
  else
    let nbytes := slot.file.length
    match lookupD storages (urlscheme uri) with
    | none => CloseResult.raisedKeyError (urlscheme uri)
    | some cls =>
      if pyTruthyBackend cls = true then
        CloseResult.launched cls slot.file
          ("Stored " ++ fmt ++ " feed (" ++ toString slot.itemcount ++
            " items, " ++ toString nbytes ++ " bytes) in: " ++ uri)
          ("Error storing " ++ fmt ++ " feed (" ++ toString slot.itemcount ++
            " items, " ++ toString nbytes ++ " bytes) in: " ++ uri)
      else CloseResult.noStorage

/-- Observable side effects of the deferred callbacks `close_spider`
attaches to the `store` deferred. -/
inductive FeedEffect where
  | logMsg (s : String)
  | logErr (s : String)
  | closeFile
deriving DecidableEq

/-- One `(callback, errback)` pair on a Twisted deferred; each returns the
effects it performs plus the value handed to the next pair. -/
structure CallbackPair (ε α : Type) where
  onSuccess : α → List FeedEffect × Except ε α
  onFailure : ε → List FeedEffect × Except ε α

/-- Twisted's callback-chain processing: a success result flows through the
callbacks, a failure through the errbacks; an errback that returns a
non-failure reinstates the success path. -/
def runChain {ε α : Type} (pairs : List (CallbackPair ε α)) (r : Except ε α) :
    List FeedEffect × Except ε α :=
  pairs.foldl
    (fun acc p =>
      match acc.2 with
      | Except.ok a => ((acc.1 ++ (p.onSuccess a).1), (p.onSuccess a).2)
      | Except.error e => ((acc.1 ++ (p.onFailure e).1), (p.onFailure e).2))
    ([], r)

/-- The chain `close_spider` attaches:
`d.addCallback(lambda _: log.msg(logfmt % "Stored"))`,
`d.addErrback(log.err, logfmt % "Error storing")` (which consumes the
failure), `d.addBoth(lambda _: slot.file.close())`. `addCallback` passes
failures through; `addErrback` passes successes through. -/
def closeChain (storedMsg errMsg : String) : List (CallbackPair String Unit) :=
  [ { onSuccess := fun _ => ([FeedEffect.logMsg storedMsg], Except.ok ()),
      onFailure := fun e => ([], Except.error e) },
    { onSuccess := fun a => ([], Except.ok a),
      onFailure := fun _ => ([FeedEffect.logErr errMsg], Except.ok ()) },
    { onSuccess := fun _ => ([FeedEffect.closeFile], Except.ok ()),
      onFailure := fun _ => ([FeedEffect.closeFile], Except.ok ()) } ]

/-- Outcome of `load_object(v)` for one registry entry: the import may raise
`NotConfigured`, raise some other exception, or yield the loaded component. -/
inductive LoadOutcome (C : Type) where
  | notConfigured
  | failed (e : String)
  | loaded (c : C)
deriving DecidableEq

/-- Whether a `load_object` outcome is an exception other than
`NotConfigured`. -/
def isFailed {C : Type} : LoadOutcome C → Bool
  | LoadOutcome.failed _ => true
  | _ => false

/-- The loop body of `FeedExporter._load_components`: build up `d`, skipping
entries whose load raises `NotConfigured` and propagating any other
exception. -/
def loadComponentsAux {V C : Type} (load : V → LoadOutcome C)
    (d : List (String × C)) : List (String × V) → Except String (List (String × C))
  | [] => Except.ok d
  | (k, v) :: rest =>
    match load v with
    | LoadOutcome.notConfigured => loadComponentsAux load d rest
    | LoadOutcome.failed e => Except.error e
    | LoadOutcome.loaded c => loadComponentsAux load (dictSet d k c) rest

/-- The merged configuration dict of `_load_components`:
`conf = dict(settings[BASE]); conf.update(settings[prefix])`. -/
def mergeConf {V : Type} (base ov : List (String × V)) : List (String × V) :=
  updAll (dictOf base) ov

/-- `FeedExporter._load_components(setting_prefix)`: merge the base and
override mappings and resolve every value, dropping `NotConfigured` entries
and propagating any other load failure. -/
def load_components {V C : Type} (load : V → LoadOutcome C)
    (base ov : List (String × V)) : Except String (List (String × C)) :=
  loadComponentsAux load [] (mergeConf base ov)

/-- Example resolver: the reference `"S2"` needs an unavailable optional
capability (its import raises `NotConfigured`); everything else loads. -/
def loadNC (v : String) : LoadOutcome String :=
  if v = "S2" then LoadOutcome.notConfigured else LoadOutcome.loaded v

/-- Example resolver: the reference `"T"` fails with an error other than
`NotConfigured`; everything else loads. -/
def loadERR (v : String) : LoadOutcome String :=
  if v = "T" then LoadOutcome.failed "ImportError" else LoadOutcome.loaded v

/-! ## Dictionary lemmas -/

theorem lookupD_dictSet {K V : Type} [DecidableEq K] (d : List (K × V))
    (k k' : K) (v : V) :
    lookupD (dictSet d k v) k' = if k' = k then some v else lookupD d k' := by
  induction d with
  | nil => simp [dictSet, lookupD]
  | cons p rest ih =>
    obtain ⟨a, b⟩ := p
    by_cases hka : k = a
    · subst hka
      by_cases h1 : k' = k <;> simp [dictSet, lookupD, h1]
    · simp only [dictSet, if_neg hka, lookupD, ih]
      by_cases h1 : k' = a
      · have hkk : ¬ k' = k := fun hh => hka (hh ▸ h1)
        have hak : ¬ a = k := fun hh => hka hh.symm
        simp [h1, hkk, hak]
      · simp [h1]

theorem lookupD_updAll {K V : Type} [DecidableEq K] (l : List (K × V)) :
    ∀ (d : List (K × V)) (k : K),
      lookupD (updAll d l) k = optOr (lookupD (dictOf l) k) (lookupD d k) := by
  induction l with
  | nil => intro d k; simp [updAll, dictOf, lookupD, optOr]
  | cons p rest ih =>
    intro d k
    obtain ⟨a, b⟩ := p
    have step : ∀ d' : List (K × V), updAll d' ((a, b) :: rest) = updAll (dictSet d' a b) rest := by
      intro d'; rfl
    rw [step d, ih (dictSet d a b) k]
    show _ = optOr (lookupD (updAll (dictSet [] a b) rest) k) (lookupD d k)
    rw [ih (dictSet [] a b) k]
    rcases h0 : lookupD (dictOf rest) k with _ | w
    · simp [optOr, lookupD_dictSet, lookupD]
      by_cases hk : k = a <;> simp [hk, optOr]
    · simp [optOr]

theorem lookupD_mergeConf {V : Type} (base ov : List (String × V)) (k : String) :
    lookupD (mergeConf base ov) k =
      optOr (lookupD (dictOf ov) k) (lookupD (dictOf base) k) :=
  lookupD_updAll ov (dictOf base) k

theorem mem_keys_dictSet {K V : Type} [DecidableEq K] (d : List (K × V))
    (k k' : K) (v : V) :
    k' ∈ (dictSet d k v).map Prod.fst ↔ k' = k ∨ k' ∈ d.map Prod.fst := by
  induction d with
  | nil => simp [dictSet]
  | cons p rest ih =>
    obtain ⟨a, b⟩ := p
    by_cases hka : k = a
    · subst hka
      simp [dictSet]
    · simp only [dictSet, if_neg hka, List.map_cons, List.mem_cons, ih]
      tauto

theorem keysNodup_dictSet {K V : Type} [DecidableEq K] (d : List (K × V))
    (k : K) (v : V) (h : (d.map Prod.fst).Nodup) :
    ((dictSet d k v).map Prod.fst).Nodup := by
  induction d with
  | nil => simp [dictSet]
  | cons p rest ih =>
    obtain ⟨a, b⟩ := p
    simp only [List.map_cons, List.nodup_cons] at h
    by_cases hka : k = a
    · subst hka
      simpa [dictSet, List.nodup_cons] using h
    · simp only [dictSet, if_neg hka, List.map_cons, List.nodup_cons]
      refine ⟨fun hmem => ?_, ih h.2⟩
      rcases (mem_keys_dictSet rest k a v).mp hmem with h1 | h1
      · exact hka h1.symm
      · exact h.1 h1

theorem keysNodup_updAll {K V : Type} [DecidableEq K] (l : List (K × V)) :
    ∀ d : List (K × V), (d.map Prod.fst).Nodup → ((updAll d l).map Prod.fst).Nodup := by
  induction l with
  | nil => intro d h; simpa [updAll] using h
  | cons p rest ih =>
    intro d h
    have step : updAll d (p :: rest) = updAll (dictSet d p.1 p.2) rest := rfl
    rw [step]
    exact ih _ (keysNodup_dictSet d p.1 p.2 h)

theorem keysNodup_mergeConf {V : Type} (base ov : List (String × V)) :
    ((mergeConf base ov).map Prod.fst).Nodup := by
  unfold mergeConf dictOf
  exact keysNodup_updAll ov (updAll [] base)
    (keysNodup_updAll base [] (by simp))

theorem lookupD_none_of_not_mem_keys {K V : Type} [DecidableEq K]
    (d : List (K × V)) (k : K) (h : k ∉ d.map Prod.fst) : lookupD d k = none := by
  induction d with
  | nil => rfl
  | cons p rest ih =>
    obtain ⟨a, b⟩ := p
    simp only [List.map_cons, List.mem_cons] at h
    push_neg at h
    simp [lookupD, h.1, ih h.2]

/-! ## Stats-key lemmas -/

theorem statKey_inj {a b : String} (h : statKey a = statKey b) : a = b := by
  have h2 : a.data ++ "/items_sampled".data = b.data ++ "/items_sampled".data := by
    have := congrArg String.data h
    simpa [statKey] using this
  have h3 : a.data = b.data := List.append_cancel_right h2
  cases a; cases b
  exact congrArg String.mk h3

theorem countD_append {K : Type} [DecidableEq K] (l1 l2 : List K) (x : K) :
    countD (l1 ++ l2) x = countD l1 x + countD l2 x := by
  induction l1 with
  | nil => simp [countD]
  | cons y rest ih => simp [countD, ih]; omega

theorem pyFalsyOpt_iff (o : Option Nat) :
    pyFalsyOpt o = true ↔ (o = none ∨ o = some 0) := by
  cases o with
  | none => simp [pyFalsyOpt]
  | some n => simp [pyFalsyOpt]

/-! ## `process_item` step lemmas -/

theorem getpath_process_item (q : Nat) (cd : Bool) (st : SamplerState)
    (d' : String) (it : SItem) (d : String) :
    getpath (process_item q cd st d' it).1.stats (statKey d) 0 =
      if statKey d = statKey d' ∧ getpath st.stats (statKey d') 0 < q
      then getpath st.stats (statKey d') 0 + 1
      else getpath st.stats (statKey d) 0 := by
  by_cases hlt : getpath st.stats (statKey d') 0 < q
  · simp only [process_item, if_pos hlt]
    simp only [getpath] at hlt ⊢
    by_cases hk : statKey d = statKey d'
    · simp [lookupD_dictSet, hk, hlt]
    · simp [lookupD_dictSet, hk]
  · simp [process_item, hlt]

theorem creq_process_item (q : Nat) (cd : Bool) (st : SamplerState)
    (d' : String) (it : SItem) :
    (process_item q cd st d' it).1.closeRequests =
      st.closeRequests ++
        (if cd = true ∧ getpath st.stats (statKey d') 0 + 1 = q then [d'] else []) := by
  by_cases hlt : getpath st.stats (statKey d') 0 < q
  · simp only [process_item, if_pos hlt]
    by_cases hc : cd = true ∧ getpath st.stats (statKey d') 0 + 1 = q
    · simp [hc]
    · simp [hc]
  · have hne : ¬ (cd = true ∧ getpath st.stats (statKey d') 0 + 1 = q) := by
      rintro ⟨-, heq⟩
      omega
    simp [process_item, hlt, hne]

theorem items_process_item (q : Nat) (cd : Bool) (st : SamplerState)
    (d' : String) (it : SItem) :
    (process_item q cd st d' it).1.items =
      if getpath st.stats (statKey d') 0 < q
      then dictSet st.items it.guid it
      else st.items := by
  by_cases hlt : getpath st.stats (statKey d') 0 < q <;> simp [process_item, hlt]

theorem stat_bound_run (q : Nat) (cd : Bool) :
    ∀ (events : List (String × SItem)) (st : SamplerState),
      (∀ d, getpath st.stats (statKey d) 0 ≤ q) →
      ∀ d, getpath (runSamplerFrom q cd events st).stats (statKey d) 0 ≤ q := by
  intro events
  induction events with
  | nil => intro st h d; exact h d
  | cons e rest ih =>
    intro st h d
    have hstep : ∀ d0, getpath (process_item q cd st e.1 e.2).1.stats (statKey d0) 0 ≤ q := by
      intro d0
      rw [getpath_process_item]
      by_cases hc : statKey d0 = statKey e.1 ∧ getpath st.stats (statKey e.1) 0 < q
      · rw [if_pos hc]; omega
      · rw [if_neg hc]; exact h d0
    exact ih (process_item q cd st e.1 e.2).1 hstep d

theorem close_once_run (q : Nat) (d : String) :
    ∀ (events : List (String × SItem)) (st : SamplerState),
      getpath st.stats (statKey d) 0 ≤ q →
      countD st.closeRequests d =
        (if getpath st.stats (statKey d) 0 = q ∧ 1 ≤ q then 1 else 0) →
      (getpath (runSamplerFrom q true events st).stats (statKey d) 0 ≤ q ∧
       countD (runSamplerFrom q true events st).closeRequests d =
        (if getpath (runSamplerFrom q true events st).stats (statKey d) 0 = q ∧ 1 ≤ q
         then 1 else 0)) := by
  intro events
  induction events with
  | nil => intro st h1 h2; exact ⟨h1, h2⟩
  | cons e rest ih =>
    intro st h1 h2
    set st' := (process_item q true st e.1 e.2).1 with hst'
    have hstat : getpath st'.stats (statKey d) 0 =
        if statKey d = statKey e.1 ∧ getpath st.stats (statKey e.1) 0 < q
        then getpath st.stats (statKey e.1) 0 + 1
        else getpath st.stats (statKey d) 0 := getpath_process_item q true st e.1 e.2 d
    have hcreq : countD st'.closeRequests d =
        countD st.closeRequests d +
          countD (if true = true ∧ getpath st.stats (statKey e.1) 0 + 1 = q then [e.1] else []) d := by
      rw [hst', creq_process_item, countD_append]
    have hbound : getpath st'.stats (statKey d) 0 ≤ q := by
      rw [hstat]
      by_cases hc : statKey d = statKey e.1 ∧ getpath st.stats (statKey e.1) 0 < q
      · rw [if_pos hc]; omega
      · rw [if_neg hc]; exact h1
    have hcount : countD st'.closeRequests d =
        (if getpath st'.stats (statKey d) 0 = q ∧ 1 ≤ q then 1 else 0) := by
      by_cases hk : statKey d = statKey e.1
      · have hdd : d = e.1 := statKey_inj hk
        by_cases hlt : getpath st.stats (statKey e.1) 0 < q
        · have hstat' : getpath st'.stats (statKey d) 0 =
              getpath st.stats (statKey e.1) 0 + 1 := by
            rw [hstat, if_pos ⟨hk, hlt⟩]
          have hcount0 : countD st.closeRequests d = 0 := by
            rw [h2, if_neg]
            rintro ⟨he, -⟩
            rw [hk] at he
            omega
          by_cases hq : getpath st.stats (statKey e.1) 0 + 1 = q
          · rw [hcreq, hcount0, if_pos ⟨rfl, hq⟩, hstat', if_pos ⟨hq, by omega⟩]
            simp [countD, hdd]
          · rw [hcreq, hcount0, if_neg (by simp [hq]), hstat', if_neg (by
              rintro ⟨he, -⟩; exact hq he)]
            simp [countD]
        · have hstat' : getpath st'.stats (statKey d) 0 = getpath st.stats (statKey d) 0 := by
            rw [hstat, if_neg (by rintro ⟨-, hl⟩; exact hlt hl)]
          have hnq : ¬ (getpath st.stats (statKey e.1) 0 + 1 = q) := by omega
          rw [hcreq, if_neg (by simp [hnq]), hstat']
          simpa [countD] using h2
      · have hstat' : getpath st'.stats (statKey d) 0 = getpath st.stats (statKey d) 0 := by
          rw [hstat, if_neg (by rintro ⟨he, -⟩; exact hk he)]
        have hde : d ≠ e.1 := fun hh => hk (congrArg statKey hh)
        have hed : ¬ e.1 = d := fun hh => hde hh.symm
        rw [hcreq, hstat']
        have : countD (if true = true ∧ getpath st.stats (statKey e.1) 0 + 1 = q
            then [e.1] else []) d = 0 := by
          split
          · simp [countD, hed]
          · simp [countD]
        rw [this, Nat.add_zero, h2]
    have hrun : runSamplerFrom q true (e :: rest) st = runSamplerFrom q true rest st' := rfl
    rw [hrun]
    exact ih st' hbound hcount

/-! ## Claim theorems: item sampler -/

/-- Claim C3. The sample map never holds more than the configured per-unit
quota of records for a crawl unit: once the unit's sampled count in the
stats store is at (or above) the quota, `process_item` leaves the whole
pipeline state unchanged — in particular it adds nothing to the sample map
and does not change the stats store — and along any run from the freshly
constructed pipeline every unit's sampled count stays at most the quota. -/
theorem sampler_quota_invariant (q : Nat) (cd : Bool) :
    (∀ (st : SamplerState) (d : String) (it : SItem),
        q ≤ getpath st.stats (statKey d) 0 →
        (process_item q cd st d it).1 = st) ∧
    (∀ (events : List (String × SItem)) (d : String),
        getpath (runSampler q cd events).stats (statKey d) 0 ≤ q) := by
  constructor
  · intro st d it h
    have hlt : ¬ getpath st.stats (statKey d) 0 < q := Nat.not_lt.mpr h
    simp [process_item, hlt]
  · intro events d
    exact stat_bound_run q cd events initialSampler
      (fun d0 => by simp [initialSampler, getpath, lookupD]) d

theorem sampler_quota_invariant_witness :
    1 ≤ getpath [("d/items_sampled", 1)] (statKey "d") 0 ∧
    (process_item 1 false
        { items := [], stats := [("d/items_sampled", 1)], closeRequests := [],
          domainsCount := 0, emptyDomains := [], logs := [] } "d"
        { guid := "g", payload := 7 }).1 =
      { items := [], stats := [("d/items_sampled", 1)], closeRequests := [],
        domainsCount := 0, emptyDomains := [], logs := [] } ∧
    getpath (runSampler 1 false [("d", { guid := "g", payload := 7 })]).stats
      (statKey "d") 0 ≤ 1 :=
  ⟨by decide,
   (sampler_quota_invariant 1 false).1
     { items := [], stats := [("d/items_sampled", 1)], closeRequests := [],
       domainsCount := 0, emptyDomains := [], logs := [] } "d"
     { guid := "g", payload := 7 } (by decide),
   (sampler_quota_invariant 1 false).2 [("d", { guid := "g", payload := 7 })] "d"⟩

/-- Claim C4. `process_item` returns the record unchanged regardless of
whether it was retained: records are never dropped by the pipeline stage,
even after the unit's quota has been reached. -/
theorem process_item_returns_item (q : Nat) (cd : Bool) (st : SamplerState)
    (d : String) (it : SItem) :
    (process_item q cd st d it).2 = it := by
  by_cases hlt : getpath st.stats (statKey d) 0 < q <;> simp [process_item, hlt]

/-- Claim C5. With the close-on-quota-fill flag set, each `process_item` call
appends a close-domain request exactly when the record it handles brings the
unit's sampled count from quota−1 to the quota, and over any whole run from
the freshly constructed pipeline the engine receives exactly one
close-domain request for a unit whose count reached the quota and none for a
unit whose count stayed below it. -/
theorem sampler_close_domain_once (q : Nat) (events : List (String × SItem))
    (d : String) (hq : 1 ≤ q) :
    (∀ (st : SamplerState) (it : SItem),
        (process_item q true st d it).1.closeRequests =
          st.closeRequests ++
            (if getpath st.stats (statKey d) 0 + 1 = q then [d] else [])) ∧
    countD (runSampler q true events).closeRequests d =
      (if getpath (runSampler q true events).stats (statKey d) 0 = q
       then 1 else 0) := by
  constructor
  · intro st it
    rw [creq_process_item]
    by_cases hc : getpath st.stats (statKey d) 0 + 1 = q
    · rw [if_pos ⟨rfl, hc⟩, if_pos hc]
    · rw [if_neg (by rintro ⟨-, hh⟩; exact hc hh), if_neg hc]
  · have h := (close_once_run q d events initialSampler
      (by simp [initialSampler, getpath, lookupD])
      (by
        rw [if_neg]
        · simp [initialSampler, countD]
        · rintro ⟨he, hge⟩
          simp [initialSampler, getpath, lookupD] at he
          omega)).2
    simp only [runSampler, runSamplerFrom] at h ⊢
    rw [h]
    by_cases hc : getpath
        (List.foldl (fun st e => (process_item q true st e.1 e.2).1) initialSampler events).stats
        (statKey d) 0 = q
    · rw [if_pos ⟨hc, hq⟩, if_pos hc]
    · rw [if_neg (by rintro ⟨hh, -⟩; exact hc hh), if_neg hc]

theorem sampler_close_domain_once_witness :
    1 ≤ 1 ∧
    countD (runSampler 1 true
        [("dom", { guid := "g", payload := 0 }),
         ("dom", { guid := "h", payload := 1 })]).closeRequests "dom" = 1 :=
  ⟨le_refl 1,
   ((sampler_close_domain_once 1
      [("dom", { guid := "g", payload := 0 }),
       ("dom", { guid := "h", payload := 1 })] "dom" (le_refl 1)).2).trans
     (by decide)⟩

/-- Claim C6. For a crawl unit whose sampled count stored in the stats store
is at or above the quota, the middleware's `process_scrape` returns an empty
result and `process_result` returns an empty result regardless of its
input; for a stored count below the quota, `process_scrape` falls through
(no override of extraction) and `process_result` returns its `result`
argument unchanged. -/
theorem middleware_quota (α : Type) (stats : List (String × Nat)) (q : Nat)
    (d : String) (result : List α) (n : Nat) :
    (lookupD stats (statKey d) = some n → q ≤ n →
       process_scrape α stats q d = some [] ∧
       process_result α stats q d result = []) ∧
    (lookupD stats (statKey d) = some n → n < q →
       process_scrape α stats q d = none ∧
       process_result α stats q d result = result) := by
  constructor
  · intro hl hge
    rw [process_scrape, process_result, hl]
    simp [pyGeOpt, hge]
  · intro hl hlt
    rw [process_scrape, process_result, hl]
    simp [pyGeOpt, Nat.not_le.mpr hlt]

theorem middleware_quota_witness :
    (lookupD [("d/items_sampled", 2)] (statKey "d") = some 2 ∧ 1 ≤ 2 ∧
      process_scrape Nat [("d/items_sampled", 2)] 1 "d" = some [] ∧
      process_result Nat [("d/items_sampled", 2)] 1 "d" [5] = []) ∧
    (lookupD [("d/items_sampled", 0)] (statKey "d") = some 0 ∧ 0 < 1 ∧
      process_scrape Nat [("d/items_sampled", 0)] 1 "d" = none ∧
      process_result Nat [("d/items_sampled", 0)] 1 "d" [5] = [5]) :=
  ⟨⟨by decide, by decide,
    (middleware_quota Nat [("d/items_sampled", 2)] 1 "d" [5] 2).1
      (by decide) (by decide)⟩,
   ⟨by decide, by decide,
    (middleware_quota Nat [("d/items_sampled", 0)] 1 "d" [5] 0).2
      (by decide) (by decide)⟩⟩

/-- Claim C9. On every crawl-unit closed-with-status event the total-domains
counter is incremented by one, the unit joins the empty-domains set exactly
when the status is `"finished"` and its sampled count is zero or absent, and
the progress line with the new domain count and the empty-set size is
appended to the log. -/
theorem domain_closed_spec (st : SamplerState) (d status : String) :
    (domain_closed st d status).domainsCount = st.domainsCount + 1 ∧
    ((domain_closed st d status).emptyDomains =
       if status = "finished" ∧
          (lookupD st.stats (statKey d) = none ∨ lookupD st.stats (statKey d) = some 0)
       then setAdd st.emptyDomains d
       else st.emptyDomains) ∧
    (domain_closed st d status).logs =
      st.logs ++
        ["Sampled " ++ toString (st.domainsCount + 1) ++ " domains so far (" ++
         toString (domain_closed st d status).emptyDomains.length ++ " empty)"] := by
  refine ⟨rfl, ?_, rfl⟩
  show (if status = "finished" ∧ pyFalsyOpt (lookupD st.stats (statKey d)) = true
        then setAdd st.emptyDomains d else st.emptyDomains) = _
  rw [if_congr (and_congr_right fun _ => pyFalsyOpt_iff _) rfl rfl]

/-- Claim C10. The sample map is keyed solely by the record's guid, not by
(crawl unit, guid): a later sampled record with the same guid — here sampled
for a different crawl unit — replaces the earlier one, so the map persisted
by `engine_stopped` holds fewer entries than the sum of the two units'
sampled counts in the stats store. -/
theorem items_keyed_by_guid (d1 d2 g : String) (p1 p2 : Nat) (h : d1 ≠ d2) :
    (runSampler 1 false [(d1, { guid := g, payload := p1 }),
                         (d2, { guid := g, payload := p2 })]).items =
      [(g, { guid := g, payload := p2 })] ∧
    getpath (runSampler 1 false [(d1, { guid := g, payload := p1 }),
                                 (d2, { guid := g, payload := p2 })]).stats
      (statKey d1) 0 = 1 ∧
    getpath (runSampler 1 false [(d1, { guid := g, payload := p1 }),
                                 (d2, { guid := g, payload := p2 })]).stats
      (statKey d2) 0 = 1 ∧
    (engine_stopped (runSampler 1 false [(d1, { guid := g, payload := p1 }),
                                         (d2, { guid := g, payload := p2 })])).persisted.length < 2 := by
  have hk : statKey d2 ≠ statKey d1 := fun hh => h (statKey_inj hh).symm
  have hk' : statKey d1 ≠ statKey d2 := fun hh => h (statKey_inj hh)
  refine ⟨?_, ?_, ?_, ?_⟩ <;>
    simp [runSampler, runSamplerFrom, process_item, initialSampler, getpath,
      lookupD, dictSet, engine_stopped, hk, hk']

theorem items_keyed_by_guid_witness :
    ("a" : String) ≠ "b" ∧
    (runSampler 1 false [("a", { guid := "g", payload := 0 }),
                         ("b", { guid := "g", payload := 1 })]).items =
      [("g", { guid := "g", payload := 1 })] :=
  ⟨by decide,
   (items_keyed_by_guid "a" "b" "g" 0 1 (by decide)).1⟩

/-! ## Feed exporter lemmas -/

theorem foldl_item_passed {α : Type} (ser : α → List Nat) :
    ∀ (records : List α) (s : FeedSlot),
      records.foldl (fun s r => (item_passed ser s r).1) s =
        { file := s.file ++ (records.map ser).flatten,
          itemcount := s.itemcount + records.length } := by
  intro records
  induction records with
  | nil => intro s; cases s; simp
  | cons r rest ih =>
    intro s
    rw [List.foldl_cons, ih]
    simp [item_passed, List.flatten_cons]
    omega

theorem runFeedItems_eq {α : Type} (ser : α → List Nat) (records : List α) :
    runFeedItems ser records =
      { file := (records.map ser).flatten, itemcount := records.length } := by
  have h := foldl_item_passed ser records openSlot
  simpa [runFeedItems, openSlot] using h

/-- Entries of the registry-load lemmas below: `loadComponentsAux` builds
exactly the dict the `_load_components` loop builds, resolving every entry,
skipping `NotConfigured` ones and propagating any other failure. -/
theorem loadAux_lookup {V C : Type} (load : V → LoadOutcome C) :
    ∀ (conf : List (String × V)) (d : List (String × C)),
      (∀ p ∈ conf, isFailed (load p.2) = false) →
      (conf.map Prod.fst).Nodup →
      ∃ r, loadComponentsAux load d conf = Except.ok r ∧
        ∀ k, lookupD r k =
          (match lookupD conf k with
           | none => lookupD d k
           | some v =>
             match load v with
             | LoadOutcome.loaded c => some c
             | _ => lookupD d k) := by
  intro conf
  induction conf with
  | nil =>
    intro d _ _
    exact ⟨d, rfl, fun k => rfl⟩
  | cons p rest ih =>
    intro d hnf hnd
    obtain ⟨k1, v1⟩ := p
    have hnf1 : isFailed (load v1) = false := hnf (k1, v1) (List.mem_cons_self _ _)
    have hnfr : ∀ p ∈ rest, isFailed (load p.2) = false :=
      fun p hp => hnf p (List.mem_cons_of_mem _ hp)
    simp only [List.map_cons, List.nodup_cons] at hnd
    have hlk1 : lookupD rest k1 = none :=
      lookupD_none_of_not_mem_keys rest k1 hnd.1
    cases hl : load v1 with
    | failed e =>
      rw [hl] at hnf1
      simp [isFailed] at hnf1
    | notConfigured =>
      obtain ⟨r, hr, hlook⟩ := ih d hnfr hnd.2
      refine ⟨r, ?_, ?_⟩
      · simp [loadComponentsAux, hl, hr]
      · intro k
        rw [hlook k]
        by_cases hk : k = k1
        · subst hk
          rw [hlk1]
          simp [lookupD, hl]
        · simp [lookupD, hk]
    | loaded c =>
      obtain ⟨r, hr, hlook⟩ := ih (dictSet d k1 c) hnfr hnd.2
      refine ⟨r, ?_, ?_⟩
      · simp [loadComponentsAux, hl, hr]
      · intro k
        rw [hlook k]
        by_cases hk : k = k1
        · subst hk
          rw [hlk1]
          simp [lookupD, hl, lookupD_dictSet]
        · cases hrk : lookupD rest k with
          | none => simp [lookupD, hk, hrk, lookupD_dictSet]
          | some v =>
            cases load v <;> simp [lookupD, hk, hrk, lookupD_dictSet]

theorem loadAux_error {V C : Type} (load : V → LoadOutcome C) :
    ∀ (conf : List (String × V)) (d : List (String × C)),
      (∃ p ∈ conf, isFailed (load p.2) = true) →
      ∃ e, loadComponentsAux load d conf = Except.error e := by
  intro conf
  induction conf with
  | nil =>
    rintro d ⟨p, hp, -⟩
    exact absurd hp (List.not_mem_nil p)
  | cons q rest ih =>
    rintro d ⟨p, hp, hf⟩
    obtain ⟨k1, v1⟩ := q
    cases hl : load v1 with
    | failed e => exact ⟨e, by simp [loadComponentsAux, hl]⟩
    | notConfigured =>
      rcases List.mem_cons.mp hp with rfl | hmem
      · have hf' : isFailed (load v1) = true := hf
        rw [hl] at hf'
        simp [isFailed] at hf'
      · obtain ⟨e, he⟩ := ih d ⟨p, hmem, hf⟩
        exact ⟨e, by simp [loadComponentsAux, hl, he]⟩
    | loaded c =>
      rcases List.mem_cons.mp hp with rfl | hmem
      · have hf' : isFailed (load v1) = true := hf
        rw [hl] at hf'
        simp [isFailed] at hf'
      · obtain ⟨e, he⟩ := ih (dictSet d k1 c) ⟨p, hmem, hf⟩
        exact ⟨e, by simp [loadComponentsAux, hl, he]⟩

/-! ## Claim theorems: feed exporter -/

/-- Claim C1 counterexample. The claim says that on close, when the formatted
URI's scheme has no entry in the storage registry, the exporter logs the
diagnostic and returns without raising. On the code, with a non-empty feed
and the registry `{"file": ...}`, closing with the formatted URI
`bogus://example/x` makes `_get_storage` evaluate
`self.storages["bogus"]`, and the `KeyError` propagates out of
`close_spider` — modelled by the `raisedKeyError` outcome — with no
diagnostic logged and nothing stored. -/
theorem close_spider_unknown_scheme_cex :
    close_spider [("file", "FileFeedStorage")] "json" false
        { file := [7], itemcount := 1 } "bogus://example/x" =
      CloseResult.raisedKeyError "bogus" := by decide

/-- Claim C1 (amended). On the crawl-unit closed signal, after formatting the
feed URI template, if the formatted URI's scheme has no entry in the
storage-backend registry (and the close is not skipped as an empty feed),
the storage lookup raises a `KeyError` that propagates out of the close
handler: nothing is logged and nothing is stored. -/
theorem close_spider_unknown_scheme_raises (storages : List (String × String))
    (fmt : String) (store_empty : Bool) (slot : FeedSlot) (uri : String)
    (hne : ¬ (slot.itemcount = 0 ∧ store_empty = false))
    (hs : lookupD storages (urlscheme uri) = none) :
    close_spider storages fmt store_empty slot uri =
      CloseResult.raisedKeyError (urlscheme uri) := by
  simp only [close_spider, if_neg hne, hs]

theorem close_spider_unknown_scheme_raises_witness :
    ¬ ((1 : Nat) = 0 ∧ false = false) ∧
    lookupD [("file", "FileFeedStorage")] (urlscheme "bogus://example/x") = none ∧
    close_spider [("file", "FileFeedStorage")] "json" false
        { file := [7], itemcount := 1 } "bogus://example/x" =
      CloseResult.raisedKeyError (urlscheme "bogus://example/x") :=
  ⟨by decide, by decide,
   close_spider_unknown_scheme_raises [("file", "FileFeedStorage")] "json" false
     { file := [7], itemcount := 1 } "bogus://example/x" (by decide) (by decide)⟩

/-- Claim C2. With `FEED_STORE_EMPTY` false and the formatted URI's scheme in
the registry, closing a spider skips storage exactly when no record passed;
with N > 0 records, `store` is launched (once, by construction of the close
handler) on a stream that is exactly the concatenation of the N serialized
records, and the log line template carries the item count N and the
stream's byte length. -/
theorem close_spider_store_iff {α : Type} (ser : α → List Nat)
    (storages : List (String × String)) (fmt : String) (records : List α)
    (uri cls : String)
    (hs : lookupD storages (urlscheme uri) = some cls) :
    (close_spider storages fmt false (runFeedItems ser records) uri =
        CloseResult.skippedEmpty ↔ records = []) ∧
    (records ≠ [] →
      close_spider storages fmt false (runFeedItems ser records) uri =
        CloseResult.launched cls ((records.map ser).flatten)
          ("Stored " ++ fmt ++ " feed (" ++ toString records.length ++
            " items, " ++ toString ((records.map ser).flatten).length ++
            " bytes) in: " ++ uri)
          ("Error storing " ++ fmt ++ " feed (" ++ toString records.length ++
            " items, " ++ toString ((records.map ser).flatten).length ++
            " bytes) in: " ++ uri)) := by
  rw [runFeedItems_eq]
  by_cases hr : records = []
  · subst hr
    exact ⟨by simp [close_spider], fun hne => absurd rfl hne⟩
  · have hlen : records.length ≠ 0 := fun hh => hr (List.length_eq_zero.mp hh)
    have heq : close_spider storages fmt false
        { file := (records.map ser).flatten, itemcount := records.length } uri =
        CloseResult.launched cls ((records.map ser).flatten)
          ("Stored " ++ fmt ++ " feed (" ++ toString records.length ++
            " items, " ++ toString ((records.map ser).flatten).length ++
            " bytes) in: " ++ uri)
          ("Error storing " ++ fmt ++ " feed (" ++ toString records.length ++
            " items, " ++ toString ((records.map ser).flatten).length ++
            " bytes) in: " ++ uri) := by
      simp [close_spider, hs, pyTruthyBackend, hlen]
    exact ⟨by rw [heq]; simp [hr], fun _ => heq⟩

theorem close_spider_store_iff_witness :
    lookupD [("file", "FileFeedStorage")] (urlscheme "file:///tmp/items.json") =
      some "FileFeedStorage" ∧
    ([1, 2] : List Nat) ≠ [] ∧
    close_spider [("file", "FileFeedStorage")] "json" false
        (runFeedItems (fun n : Nat => [n, n]) [1, 2]) "file:///tmp/items.json" =
      CloseResult.launched "FileFeedStorage" [1, 1, 2, 2]
        "Stored json feed (2 items, 4 bytes) in: file:///tmp/items.json"
        "Error storing json feed (2 items, 4 bytes) in: file:///tmp/items.json" :=
  ⟨by decide, by decide,
   ((close_spider_store_iff (fun n : Nat => [n, n])
      [("file", "FileFeedStorage")] "json" [1, 2] "file:///tmp/items.json"
      "FileFeedStorage" (by decide)).2 (by decide)).trans (by decide)⟩

/-- Claim C7. Whatever the outcome of the `store` deferred — success or
failure — the callback chain attached in `close_spider` closes the
temporary stream exactly once, as its final effect. -/
theorem store_deferred_closes_file_last (storedMsg errMsg : String)
    (r : Except String Unit) :
    countD (runChain (closeChain storedMsg errMsg) r).1 FeedEffect.closeFile = 1 ∧
    (runChain (closeChain storedMsg errMsg) r).1.getLast? =
      some FeedEffect.closeFile := by
  cases r with
  | ok a => simp [runChain, closeChain, countD]
  | error e => simp [runChain, closeChain, countD]

/-- Claim C8. `_load_components` merges the base mapping with the override
mapping so that an override entry replaces a base entry with the same key;
when no entry's resolution fails with an error other than `NotConfigured`,
the load succeeds and a key resolves in the result exactly to its loaded
component, with keys whose resolution raised `NotConfigured` silently
omitted; and if any entry's resolution fails with another error, the whole
load propagates an error. -/
theorem load_components_spec {V C : Type} (load : V → LoadOutcome C)
    (base ov : List (String × V)) (k : String) :
    (lookupD (mergeConf base ov) k =
       optOr (lookupD (dictOf ov) k) (lookupD (dictOf base) k)) ∧
    ((∀ p ∈ mergeConf base ov, isFailed (load p.2) = false) →
       ∃ r, load_components load base ov = Except.ok r ∧
         lookupD r k =
           (match lookupD (mergeConf base ov) k with
            | none => none
            | some v =>
              match load v with
              | LoadOutcome.loaded c => some c
              | _ => none)) ∧
    ((∃ p ∈ mergeConf base ov, isFailed (load p.2) = true) →
       ∃ e, load_components load base ov = Except.error e) := by
  refine ⟨lookupD_mergeConf base ov k, ?_, ?_⟩
  · intro hnf
    obtain ⟨r, hr, hlook⟩ :=
      loadAux_lookup load (mergeConf base ov) [] hnf (keysNodup_mergeConf base ov)
    refine ⟨r, hr, ?_⟩
    rw [hlook k]
    cases lookupD (mergeConf base ov) k with
    | none => rfl
    | some v => cases load v <;> rfl
  · intro hex
    exact loadAux_error load (mergeConf base ov) [] hex

theorem load_components_spec_witness :
    ((∀ p ∈ mergeConf [("file", "F"), ("s3", "S")] [("s3", "S2"), ("ftp", "T")],
        isFailed (loadNC p.2) = false) ∧
      ∃ r, load_components loadNC [("file", "F"), ("s3", "S")]
          [("s3", "S2"), ("ftp", "T")] = Except.ok r ∧
        lookupD r "s3" = none) ∧
    ((∃ p ∈ mergeConf [("file", "F"), ("s3", "S")] [("s3", "S2"), ("ftp", "T")],
        isFailed (loadERR p.2) = true) ∧
      ∃ e, load_components loadERR [("file", "F"), ("s3", "S")]
          [("s3", "S2"), ("ftp", "T")] = Except.error e) := by
  constructor
  · refine ⟨by decide, ?_⟩
    obtain ⟨r, hr, hl⟩ :=
      (load_components_spec loadNC [("file", "F"), ("s3", "S")]
        [("s3", "S2"), ("ftp", "T")] "s3").2.1 (by decide)
    exact ⟨r, hr, hl.trans (by decide)⟩
  · refine ⟨⟨("ftp", "T"), by decide, by decide⟩, ?_⟩
    exact (load_components_spec loadERR [("file", "F"), ("s3", "S")]
      [("s3", "S2"), ("ftp", "T")] "s3").2.2 ⟨("ftp", "T"), by decide, by decide⟩

end Scrapy
